import Mathlib

/-!
Verification development for the rift-rewind match-processing pipeline.

The Python source under rewind-backend is shallowly embedded here:
pure functions become Lean functions over Nat / Rat (Python ints and
floats; floats are idealised as exact rationals, with Python round
modelled as round-half-to-even on rationals), stateful lambda handlers
become explicit state-passing functions with failure-injection flags
standing for the outcomes of the external AWS calls, and Python
exceptions become Except values.
-/

namespace RiftRewind

/-- Nearest integer to a rational, ties to even: the semantics of the
Python builtin round applied at integer granularity. -/
def roundScaled (q : ℚ) : ℤ :=
  let f : ℤ := ⌊q⌋
  let r : ℚ := q - f
  if r < 1/2 then f
  else if 1/2 < r then f + 1
  else if f % 2 = 0 then f else f + 1

/-- Python round(q, ndigits) on an exact rational. -/
def pyRound (q : ℚ) (ndigits : ℕ) : ℚ :=
  (roundScaled (q * (10 ^ ndigits)) : ℚ) / (10 ^ ndigits)

namespace RateLimit

/-- One HTTP response as seen by the retry loop: status code, the
optional Retry-After header (seconds) and an opaque payload. -/
structure Response where
  status_code : ℕ
  retryAfter : Option ℕ
  payload : String
deriving DecidableEq, Repr

/-- Failure modes of the fetcher: retries exhausted on 429, or a
non-retried HTTP error (raise_for_status on a non-2xx status). -/
inductive FetchError where
  | rateLimitExceeded
  | httpError (code : ℕ)
deriving DecidableEq, Repr

/-- Exponential backoff delay of rate_limit_handler.py, in
milliseconds: min(base_delay * 2 ** retry_count, 60 s). -/
def backoffDelayMs (baseMs rc : ℕ) : ℕ :=
  min (baseMs * 2 ^ rc) 60000

/-- Delay slept before retrying a 429 response: the Retry-After header
if present (seconds, converted to ms), else exponential backoff. -/
def delayFor (r : Response) (baseMs rc : ℕ) : ℕ :=
  match r.retryAfter with
  | some s => s * 1000
  | none => backoffDelayMs baseMs rc

/-- The while-loop of make_request_with_retry, embedded with explicit
fuel (the loop runs at most max_retries + 1 iterations, so fuel
max_retries + 1 - retry_count makes the zero-fuel case unreachable).
The request function is modelled as the sequence of responses the
upstream returns on successive attempts; the result carries the list of
sleeps performed, in order and in milliseconds. -/
def runAttempts (resp : ℕ → Response) (maxRetries baseMs : ℕ) :
    ℕ → ℕ → Except FetchError Response × List ℕ
  | _, 0 => (Except.error FetchError.rateLimitExceeded, [])
  | rc, fuel + 1 =>
    let r := resp rc
    if r.status_code = 200 then (Except.ok r, [])
    else if r.status_code = 429 then
      if rc < maxRetries then
        let d := delayFor r baseMs rc
        let rest := runAttempts resp maxRetries baseMs (rc + 1) fuel
        (rest.1, d :: rest.2)
      else (Except.error FetchError.rateLimitExceeded, [])
    else if 400 ≤ r.status_code then
      (Except.error (FetchError.httpError r.status_code), [])
    else (Except.ok r, [])

/-- make_request_with_retry of lib/rate_limit_handler.py. -/
def make_request_with_retry (resp : ℕ → Response) (maxRetries baseMs : ℕ) :
    Except FetchError Response × List ℕ :=
  runAttempts resp maxRetries baseMs 0 (maxRetries + 1)

end RateLimit

/-- Python exceptions that the embedded code can raise. -/
inductive PyError where
  | attributeError
  | nameError
deriving DecidableEq, Repr

/-- The thirteen ping counters of a participant; in the source they are
top-level keys of the participant dict, grouped here into one record. -/
structure Pings where
  allInPings : ℕ
  assistMePings : ℕ
  basicPings : ℕ
  commandPings : ℕ
  dangerPings : ℕ
  enemyMissingPings : ℕ
  enemyVisionPings : ℕ
  getBackPings : ℕ
  holdPings : ℕ
  needVisionPings : ℕ
  onMyWayPings : ℕ
  pushPings : ℕ
  visionClearedPings : ℕ
deriving DecidableEq, Repr, Inhabited

def Pings.zero : Pings := ⟨0, 0, 0, 0, 0, 0, 0, 0, 0, 0, 0, 0, 0⟩

/-- Key-wise sum, as the per-key += loop over get_ping_counts. -/
def Pings.add (x y : Pings) : Pings :=
  ⟨x.allInPings + y.allInPings, x.assistMePings + y.assistMePings,
   x.basicPings + y.basicPings, x.commandPings + y.commandPings,
   x.dangerPings + y.dangerPings, x.enemyMissingPings + y.enemyMissingPings,
   x.enemyVisionPings + y.enemyVisionPings, x.getBackPings + y.getBackPings,
   x.holdPings + y.holdPings, x.needVisionPings + y.needVisionPings,
   x.onMyWayPings + y.onMyWayPings, x.pushPings + y.pushPings,
   x.visionClearedPings + y.visionClearedPings⟩

/-- One entry of match_data.info.participants, restricted to the fields
the analyzed code reads. -/
structure Participant where
  puuid : String
  win : Bool
  championName : String
  individualPosition : String
  kills : ℕ
  deaths : ℕ
  assists : ℕ
  totalMinionsKilled : ℕ
  visionScore : ℕ
  wardsPlaced : ℕ
  wardsKilled : ℕ
  teamEarlySurrendered : Bool
  firstBloodKill : Bool
  pings : Pings
deriving DecidableEq, Repr

structure MatchMetadata where
  matchId : String
deriving DecidableEq, Repr

structure MatchInfo where
  participants : List Participant
  gameDuration : ℕ
deriving DecidableEq, Repr

/-- One fetched match payload (WorkItem raw_payload). -/
structure MatchData where
  metadata : MatchMetadata
  info : MatchInfo
deriving DecidableEq, Repr

/-- The search loop of MatchAnalyzer.__init__: the first participant
whose puuid matches, if any. -/
def findPlayer (puuid : String) (m : MatchData) : Option Participant :=
  m.info.participants.find? (fun p => p.puuid = puuid)

/-- lib/match_analyzer.py MatchAnalyzer. The __init__ loop assigns
self.player_data only when a matching participant exists, so the field
is embedded as an Option; accessors touching an unassigned player_data
raise AttributeError. -/
structure MatchAnalyzer where
  player_data : Option Participant
  match_data : MatchData
deriving DecidableEq, Repr

def MatchAnalyzer.init (puuid : String) (m : MatchData) : MatchAnalyzer :=
  ⟨findPlayer puuid m, m⟩

/-- Reading self.player_data: AttributeError when it was never
assigned by __init__. -/
def MatchAnalyzer.playerField (a : MatchAnalyzer) : Except PyError Participant :=
  match a.player_data with
  | some p => Except.ok p
  | none => Except.error PyError.attributeError

def MatchAnalyzer.get_ping_counts (a : MatchAnalyzer) : Except PyError Pings := do
  let p ← a.playerField
  pure p.pings

def MatchAnalyzer.get_match_duration (a : MatchAnalyzer) : ℕ :=
  a.match_data.info.gameDuration

def MatchAnalyzer.is_match_won (a : MatchAnalyzer) : Except PyError Bool := do
  let p ← a.playerField
  pure p.win

def MatchAnalyzer.played_champion (a : MatchAnalyzer) : Except PyError String := do
  let p ← a.playerField
  pure p.championName

def MatchAnalyzer.played_position (a : MatchAnalyzer) : Except PyError String := do
  let p ← a.playerField
  pure p.individualPosition

def MatchAnalyzer.get_kda (a : MatchAnalyzer) : Except PyError (ℕ × ℕ × ℕ) := do
  let p ← a.playerField
  pure (p.kills, p.deaths, p.assists)

def MatchAnalyzer.get_cs (a : MatchAnalyzer) : Except PyError ℕ := do
  let p ← a.playerField
  pure p.totalMinionsKilled

def MatchAnalyzer.get_vision_score (a : MatchAnalyzer) : Except PyError ℕ := do
  let p ← a.playerField
  pure p.visionScore

def MatchAnalyzer.get_wards_placed (a : MatchAnalyzer) : Except PyError ℕ := do
  let p ← a.playerField
  pure p.wardsPlaced

def MatchAnalyzer.get_wards_killed (a : MatchAnalyzer) : Except PyError ℕ := do
  let p ← a.playerField
  pure p.wardsKilled

def MatchAnalyzer.early_surrender (a : MatchAnalyzer) : Except PyError Bool := do
  let p ← a.playerField
  pure p.teamEarlySurrendered

def MatchAnalyzer.got_first_blood (a : MatchAnalyzer) : Except PyError Bool := do
  let p ← a.playerField
  pure p.firstBloodKill

namespace MatchDataAggregator

/-- MatchDataAggregator._calculate_per_minute: round(total / duration *
60, 2) with a zero-duration guard. -/
def calculate_per_minute (total : ℚ) (duration_seconds : ℕ) : ℚ :=
  if duration_seconds = 0 then 0
  else pyRound (total / duration_seconds * 60) 2

/-- The positions dict, initialised with the five fixed lanes at 0. -/
structure Positions where
  TOP : ℕ
  JUNGLE : ℕ
  MIDDLE : ℕ
  BOTTOM : ℕ
  UTILITY : ℕ
deriving DecidableEq, Repr, Inhabited

def Positions.zero : Positions := ⟨0, 0, 0, 0, 0⟩

/-- Increment a lane only when the key is one of the five present in
the dict, as the membership test in the source does. -/
def Positions.bump (ps : Positions) (pos : String) : Positions :=
  if pos = "TOP" then { ps with TOP := ps.TOP + 1 }
  else if pos = "JUNGLE" then { ps with JUNGLE := ps.JUNGLE + 1 }
  else if pos = "MIDDLE" then { ps with MIDDLE := ps.MIDDLE + 1 }
  else if pos = "BOTTOM" then { ps with BOTTOM := ps.BOTTOM + 1 }
  else if pos = "UTILITY" then { ps with UTILITY := ps.UTILITY + 1 }
  else ps

/-- One value of the champion_stats dict. The derived fields are added
by the post-loop averages pass and are absent (none) until then. -/
structure ChampStats where
  games : ℕ
  wins : ℕ
  losses : ℕ
  kills : ℕ
  deaths : ℕ
  assists : ℕ
  cs : ℕ
  vision_score : ℕ
  duration : ℕ
  win_rate : Option ℚ := none
  avg_kills : Option ℚ := none
  avg_deaths : Option ℚ := none
  avg_assists : Option ℚ := none
  avg_cs : Option ℚ := none
  avg_vision_score : Option ℚ := none
  cs_per_minute : Option ℚ := none
  vision_per_minute : Option ℚ := none
deriving DecidableEq, Repr

def ChampStats.zero : ChampStats :=
  { games := 0, wins := 0, losses := 0, kills := 0, deaths := 0,
    assists := 0, cs := 0, vision_score := 0, duration := 0 }

/-- Python dicts keep insertion order; both champion dicts are embedded
as association lists where a new key is appended at the end. -/
def bumpChampions (l : List (String × ℕ)) (c : String) : List (String × ℕ) :=
  if l.any (fun kv => kv.1 = c) then
    l.map (fun kv => if kv.1 = c then (kv.1, kv.2 + 1) else kv)
  else l ++ [(c, 1)]

def updateChampStats (l : List (String × ChampStats)) (c : String)
    (f : ChampStats → ChampStats) : List (String × ChampStats) :=
  if l.any (fun kv => kv.1 = c) then
    l.map (fun kv => if kv.1 = c then (kv.1, f kv.2) else kv)
  else l ++ [(c, f ChampStats.zero)]

/-- One entry of the match_performances working list. -/
structure MatchPerformance where
  match_id : String
  champion : String
  kda_ratio : ℚ
  kills : ℕ
  deaths : ℕ
  assists : ℕ
  cs : ℕ
  vision_score : ℕ
  won : Bool
  duration : ℕ
deriving DecidableEq, Repr, Inhabited

/-- The best_match / worst_match summary dict. The source formats the
kda field as the string "k/d/a". -/
structure MatchSummary where
  match_id : String
  champion : String
  kda : String
  kda_ratio : ℚ
  cs : ℕ
  vision_score : ℕ
  won : Bool
deriving DecidableEq, Repr

def mkSummary (w : MatchPerformance) (isWin : Bool) : MatchSummary :=
  ⟨w.match_id, w.champion,
   toString w.kills ++ "/" ++ toString w.deaths ++ "/" ++ toString w.assists,
   pyRound w.kda_ratio 2, w.cs, w.vision_score, isWin⟩

/-- The performance_metrics dict; in the source it stays the empty dict
unless there is at least one game with positive total duration, which
is embedded as an Option. -/
structure PerfMetrics where
  cs_per_minute : ℚ
  vision_per_minute : ℚ
  avg_kills : ℚ
  avg_deaths : ℚ
  avg_assists : ℚ
  avg_cs : ℚ
  avg_vision_score : ℚ
  avg_game_duration : ℚ
deriving DecidableEq, Repr

/-- The aggregated_data dict of aggregate_match_data. -/
structure AggData where
  pings : Pings
  kills : ℕ
  deaths : ℕ
  assists : ℕ
  cs : ℕ
  vision_score : ℕ
  wards_placed : ℕ
  wards_killed : ℕ
  early_surrender : ℕ
  first_blood : ℕ
  match_duration : ℕ
  won : ℕ
  lost : ℕ
  champions : List (String × ℕ)
  positions : Positions
  champion_stats : List (String × ChampStats)
  performance_metrics : Option PerfMetrics
  best_match : Option MatchSummary
  worst_match : Option MatchSummary
deriving DecidableEq, Repr, Inhabited

def AggData.init : AggData :=
  { pings := Pings.zero, kills := 0, deaths := 0, assists := 0, cs := 0,
    vision_score := 0, wards_placed := 0, wards_killed := 0,
    early_surrender := 0, first_blood := 0, match_duration := 0,
    won := 0, lost := 0, champions := [], positions := Positions.zero,
    champion_stats := [], performance_metrics := none,
    best_match := none, worst_match := none }

/-- The body of the per-match loop of aggregate_match_data: reads every
statistic through MatchAnalyzer (raising AttributeError when the player
is absent from the match) and folds it into the accumulator, also
appending the match_performances entry. -/
def stepMatch (puuid : String) (acc : AggData × List MatchPerformance)
    (m : MatchData) : Except PyError (AggData × List MatchPerformance) := do
  let a := MatchAnalyzer.init puuid m
  let kda ← a.get_kda
  let k := kda.1
  let d := kda.2.1
  let asst := kda.2.2
  let champion ← a.played_champion
  let position ← a.played_position
  let won ← a.is_match_won
  let duration := a.get_match_duration
  let cs ← a.get_cs
  let vision ← a.get_vision_score
  let wardsP ← a.get_wards_placed
  let wardsK ← a.get_wards_killed
  let early ← a.early_surrender
  let fb ← a.got_first_blood
  let pingCounts ← a.get_ping_counts
  let match_id := m.metadata.matchId
  let kda_ratio : ℚ := if d > 0 then ((k : ℚ) + asst) / d else ((k : ℚ) + asst)
  let ad := acc.1
  let perfs := acc.2
  let ad2 : AggData :=
    { ad with
      pings := Pings.add ad.pings pingCounts,
      kills := ad.kills + k,
      deaths := ad.deaths + d,
      assists := ad.assists + asst,
      cs := ad.cs + cs,
      vision_score := ad.vision_score + vision,
      wards_placed := ad.wards_placed + wardsP,
      wards_killed := ad.wards_killed + wardsK,
      early_surrender := ad.early_surrender + (if early then 1 else 0),
      first_blood := ad.first_blood + (if fb then 1 else 0),
      match_duration := ad.match_duration + duration,
      won := ad.won + (if won then 1 else 0),
      lost := ad.lost + (if won then 0 else 1),
      champions := bumpChampions ad.champions champion,
      positions := ad.positions.bump position,
      champion_stats := updateChampStats ad.champion_stats champion
        (fun s =>
          { s with
            games := s.games + 1,
            wins := s.wins + (if won then 1 else 0),
            losses := s.losses + (if won then 0 else 1),
            kills := s.kills + k,
            deaths := s.deaths + d,
            assists := s.assists + asst,
            cs := s.cs + cs,
            vision_score := s.vision_score + vision,
            duration := s.duration + duration }) }
  let perf : MatchPerformance :=
    ⟨match_id, champion, kda_ratio, k, d, asst, cs, vision, won, duration⟩
  pure (ad2, perfs ++ [perf])

/-- The per-champion averages pass run after the loop. -/
def finalizeChampStats (s : ChampStats) : ChampStats :=
  if s.games > 0 then
    let base :=
      { s with
        win_rate := some (pyRound ((s.wins : ℚ) / s.games * 100) 1),
        avg_kills := some (pyRound ((s.kills : ℚ) / s.games) 1),
        avg_deaths := some (pyRound ((s.deaths : ℚ) / s.games) 1),
        avg_assists := some (pyRound ((s.assists : ℚ) / s.games) 1),
        avg_cs := some (pyRound ((s.cs : ℚ) / s.games) 1),
        avg_vision_score := some (pyRound ((s.vision_score : ℚ) / s.games) 1) }
    if s.duration > 0 then
      { base with
        cs_per_minute := some (calculate_per_minute s.cs s.duration),
        vision_per_minute := some (calculate_per_minute s.vision_score s.duration) }
    else base
  else s

def mkPerfMetrics (ad : AggData) (total_games : ℕ) : Option PerfMetrics :=
  if total_games > 0 ∧ ad.match_duration > 0 then
    some
      ⟨calculate_per_minute ad.cs ad.match_duration,
       calculate_per_minute ad.vision_score ad.match_duration,
       pyRound ((ad.kills : ℚ) / total_games) 1,
       pyRound ((ad.deaths : ℚ) / total_games) 1,
       pyRound ((ad.assists : ℚ) / total_games) 1,
       pyRound ((ad.cs : ℚ) / total_games) 1,
       pyRound ((ad.vision_score : ℚ) / total_games) 1,
       pyRound ((ad.match_duration : ℚ) / total_games / 60) 1⟩
  else none

/-- Python max(xs, key=f): the first element of xs whose key no later
element strictly exceeds. -/
def keepMax {α : Type} (f : α → ℚ) (a b : α) : α := if f b > f a then b else a

def argmaxFirst {α : Type} (f : α → ℚ) : List α → Option α
  | [] => none
  | x :: xs => some (xs.foldl (keepMax f) x)

/-- Python min(xs, key=f). -/
def keepMin {α : Type} (f : α → ℚ) (a b : α) : α := if f b < f a then b else a

def argminFirst {α : Type} (f : α → ℚ) : List α → Option α
  | [] => none
  | x :: xs => some (xs.foldl (keepMin f) x)

/-- MatchDataAggregator.aggregate_match_data of
lib/match_data_aggregator.py. The source guards the best/worst block by
match_performances being nonempty, which coincides with argmaxFirst and
argminFirst returning none on empty filtered lists. -/
def aggregate_match_data (puuid : String) (l : List MatchData) :
    Except PyError AggData := do
  let folded ← l.foldlM (stepMatch puuid) (AggData.init, [])
  let ad : AggData := folded.1
  let perfs : List MatchPerformance := folded.2
  let ad2 : AggData := { ad with
    champion_stats := ad.champion_stats.map (fun kv => (kv.1, finalizeChampStats kv.2)) }
  let ad3 : AggData := { ad2 with performance_metrics := mkPerfMetrics ad2 l.length }
  let wins : List MatchPerformance := perfs.filter (fun p => p.won)
  let losses : List MatchPerformance := perfs.filter (fun p => !p.won)
  let ad4 : AggData := { ad3 with
    best_match := (argmaxFirst (fun p => p.kda_ratio) wins).map (fun w => mkSummary w true) }
  let ad5 : AggData := { ad4 with
    worst_match := (argminFirst (fun p => p.kda_ratio) losses).map (fun w => mkSummary w false) }
  pure ad5

end MatchDataAggregator

/-- The owner's row of the user-insights DynamoDB table, as read by the
code: processed_count and total_matches, both defaulting to 0 when the
attribute is missing. -/
structure UserRow where
  processed_count : ℕ
  total_matches : ℕ
deriving DecidableEq, Repr, Inhabited

/-- The users/puuid/matches.json object, restricted to the fields the
pipeline reads back. -/
structure MatchesJson where
  match_ids : List String
  processed_match_ids : List String
deriving DecidableEq, Repr, Inhabited

def lookupMatchData (store : List (String × MatchData)) (id : String) :
    Option MatchData :=
  (store.find? (fun kv => kv.1 = id)).map (fun kv => kv.2)

namespace AggregateUser

open MatchDataAggregator

/-- The durable state the aggregate_user lambda reads: the owner's
matches.json (none models NoSuchKey), the DynamoDB counter row (none
models both a missing item and a failed read, which the code treats
alike by falling through), and the matches/{id}.json cache. -/
structure AggState where
  matchesJson : Option MatchesJson
  ddbRow : Option UserRow
  matchStore : List (String × MatchData)
deriving DecidableEq, Repr

/-- check_all_matches_processed of lambdas/aggregate_user/handler.py:
DynamoDB is the source of truth when its row is readable; otherwise the
code falls back to comparing the two S3 id lists. -/
def check_all_matches_processed (st : AggState) : Bool × List String :=
  match st.matchesJson with
  | none => (false, [])
  | some mj =>
    match st.ddbRow with
    | some row =>
      (decide (row.processed_count ≥ row.total_matches ∧ row.total_matches > 0),
       mj.match_ids)
    | none =>
      (decide (mj.processed_match_ids.length = mj.match_ids.length ∧
               mj.match_ids.length > 0),
       mj.match_ids)

/-- What store_aggregated_data persists to S3: either the full
aggregate with its match_count, or the zero stub written when no match
payload could be loaded (a dict with only zeroed scalar fields). -/
inductive StoredPayload where
  | full (d : AggData) (match_count : ℕ)
  | zeroStub
deriving DecidableEq, Repr

/-- The writes of store_aggregated_data: the S3 object (payload plus
last_updated and puuid metadata) and the DynamoDB row it replaces
(status complete, last_updated, match_count). -/
structure StoredAggregate where
  payload : StoredPayload
  last_updated : String
  puuid : String
  ddb_status : String
  ddb_match_count : ℕ
deriving DecidableEq, Repr

def store_aggregated_data (puuid : String) (p : StoredPayload) (now : String) :
    StoredAggregate :=
  { payload := p, last_updated := now, puuid := puuid,
    ddb_status := "complete",
    ddb_match_count := match p with | StoredPayload.full _ mc => mc | StoredPayload.zeroStub => 0 }

/-- The observable outcome of one aggregate_user invocation. -/
structure AggOutcome where
  statusCode : ℕ
  bodyStatus : Option String
  written : Option StoredAggregate
deriving DecidableEq, Repr

/-- lambda_handler of lambdas/aggregate_user/handler.py, for a parsed
puuid. Matches whose payload is missing from S3 are skipped by the
load loop (try/continue); a raised exception from MatchDataAggregator
is caught by the top-level handler and yields 500 with nothing stored.
The clock argument stands for datetime.now and flows only into the
stored last_updated field. -/
def lambda_handler (puuid : String) (st : AggState) (now : String) : AggOutcome :=
  let checked := check_all_matches_processed st
  if !checked.1 then
    { statusCode := 200, bodyStatus := some "in_progress", written := none }
  else
    let match_data_list := checked.2.filterMap (lookupMatchData st.matchStore)
    if match_data_list.isEmpty then
      { statusCode := 200, bodyStatus := none,
        written := some (store_aggregated_data puuid StoredPayload.zeroStub now) }
    else
      match aggregate_match_data puuid match_data_list with
      | Except.error _ => { statusCode := 500, bodyStatus := none, written := none }
      | Except.ok d =>
        { statusCode := 200, bodyStatus := some "complete",
          written := some (store_aggregated_data puuid
            (StoredPayload.full d match_data_list.length) now) }

end AggregateUser

namespace ProcessMatch

/-- The SQS message body the per-item processor consumes. -/
structure Msg where
  puuid : String
  match_id : String
deriving DecidableEq, Repr

/-- Failure-injection oracle for the external calls the handler makes,
plus the payload the upstream API would return. Each flag is the
outcome of the corresponding boto3 or requests call. -/
structure PMFlags where
  s3GetFails : Bool
  fetchFails : Bool
  s3PutFails : Bool
  detailsPutFails : Bool
  listPutFails : Bool
  incrFails : Bool
  invokeFails : Bool
  aggregateFnConfigured : Bool
  apiData : MatchData
deriving DecidableEq, Repr

/-- The durable state the process_match lambda touches. -/
structure PMState where
  matchCache : List (String × MatchData)
  userRow : Option UserRow
  matchIds : List String
  processedIds : List String
  userDetails : List String
  matchIndexIds : List String
  aggregateInvocations : ℕ
deriving DecidableEq, Repr

def cachePut (cache : List (String × MatchData)) (id : String) (md : MatchData) :
    List (String × MatchData) :=
  if cache.any (fun kv => kv.1 = id) then
    cache.map (fun kv => if kv.1 = id then (kv.1, md) else kv)
  else cache ++ [(id, md)]

def listInsert (l : List String) (x : String) : List String :=
  if x ∈ l then l else l ++ [x]

/-- store_match_in_s3: catches any exception, returning False (here:
leaving the cache unchanged); the caller ignores the result. -/
def store_match_in_s3 (fl : PMFlags) (st : PMState) (match_id : String)
    (md : MatchData) : PMState :=
  if fl.s3PutFails then st
  else { st with matchCache := cachePut st.matchCache match_id md }

/-- update_match_index_table: records the match in the index table
(participants set elided); exceptions are swallowed. -/
def update_match_index_table (st : PMState) (match_id : String) : PMState :=
  { st with matchIndexIds := listInsert st.matchIndexIds match_id }

/-- store_user_match_details: returns False without writing when the
owner is absent from the participants or when the S3 put fails; the
stored document body is elided, only the ids written are tracked. -/
def store_user_match_details (fl : PMFlags) (st : PMState) (puuid match_id : String)
    (md : MatchData) : PMState :=
  match findPlayer puuid md with
  | none => st
  | some _ =>
    if fl.detailsPutFails then st
    else { st with userDetails := listInsert st.userDetails match_id }

/-- update_user_matches_list: read-modify-write of matches.json with
duplicate-free appends; any failure is swallowed leaving the object
unchanged. -/
def update_user_matches_list (fl : PMFlags) (st : PMState) (match_id : String) :
    PMState :=
  if fl.listPutFails then st
  else { st with
    matchIds := listInsert st.matchIds match_id,
    processedIds := listInsert st.processedIds match_id }

/-- The fetch phase of the handler: load from S3 when cached (falling
back to an API fetch plus best-effort store when the load raises), else
fetch from the API and store. An error propagates to the top-level
except clause of the handler. -/
def fetchPhase (msg : Msg) (fl : PMFlags) (st : PMState) :
    Except Unit (MatchData × PMState) :=
  match lookupMatchData st.matchCache msg.match_id with
  | some md =>
    if fl.s3GetFails then
      if fl.fetchFails then Except.error ()
      else Except.ok (fl.apiData, store_match_in_s3 fl st msg.match_id fl.apiData)
    else Except.ok (md, st)
  | none =>
    if fl.fetchFails then Except.error ()
    else Except.ok (fl.apiData, store_match_in_s3 fl st msg.match_id fl.apiData)

/-- increment_processed_count_atomic: DynamoDB ADD creates the row with
processed_count 1 when absent (total_matches then reads back as 0) and
adds 1 otherwise, returning the new values. -/
def increment_processed_count_atomic (row : Option UserRow) : UserRow :=
  match row with
  | some r => { r with processed_count := r.processed_count + 1 }
  | none => { processed_count := 1, total_matches := 0 }

/-- lambda_handler of lambdas/process_match/handler.py for a parsed
message, returning the HTTP-style status code and the updated state.
All environment variables are taken as configured except the optional
aggregate function name, which is a flag. A fetch failure reaches the
top-level except clause, which returns 500 (it does not re-raise);
storage failures are swallowed by their helpers; an increment failure
is caught and the handler still returns 200. -/
def lambda_handler (msg : Msg) (fl : PMFlags) (st : PMState) : ℕ × PMState :=
  match fetchPhase msg fl st with
  | Except.error _ => (500, st)
  | Except.ok (md, st1) =>
    let st2 := update_match_index_table st1 msg.match_id
    let st3 := store_user_match_details fl st2 msg.puuid msg.match_id md
    let st4 := update_user_matches_list fl st3 msg.match_id
    if fl.incrFails then (200, st4)
    else
      let newRow := increment_processed_count_atomic st4.userRow
      let st5 := { st4 with userRow := some newRow }
      if newRow.processed_count ≥ newRow.total_matches ∧ newRow.total_matches > 0 then
        if fl.aggregateFnConfigured ∧ !fl.invokeFails then
          (200, { st5 with aggregateInvocations := st5.aggregateInvocations + 1 })
        else (200, st5)
      else (200, st5)

/-- View of the owner's processed_count as the code reads it back: 0
when the row does not exist. -/
def pcOf (st : PMState) : ℕ :=
  match st.userRow with
  | some r => r.processed_count
  | none => 0

/-- View of the owner's total_matches, 0 when the row is absent. -/
def tmOf (st : PMState) : ℕ :=
  match st.userRow with
  | some r => r.total_matches
  | none => 0

end ProcessMatch

namespace ProcessUserMatches

/-- The externally visible actions of the dispatcher, in program
order. -/
inductive DispatchEvent where
  | putManifest (total : ℕ)
  | enqueue (matchId : String)
  | initCounterRow (total : ℕ)
deriving DecidableEq, Repr

/-- lambda_handler of lambdas/process_user_matches/handler.py, starting
from the resolved paginated listing of the owner's match ids. With no
matches the code calls store_aggregated_data, a name neither defined
nor imported in that module: the NameError is caught by the top-level
except clause, which returns 500 having emitted no event. Otherwise it
writes matches.json (the manifest), enqueues one message per id, and
only then writes the owner's DynamoDB status row (a put_item carrying
status and total_matches but no processed_count attribute). -/
def lambda_handler (allMatchIds : List String) : ℕ × List DispatchEvent :=
  if allMatchIds.isEmpty then (500, [])
  else
    (200,
     DispatchEvent.putManifest allMatchIds.length ::
       allMatchIds.map DispatchEvent.enqueue ++
       [DispatchEvent.initCounterRow allMatchIds.length])

end ProcessUserMatches


/-! ## Spec-side characterisations and concrete fixtures -/

namespace MatchDataAggregator

/-- The match_performances entry built for a match whose participant
lookup found p. -/
def perfOfP (m : MatchData) (p : Participant) : MatchPerformance :=
  ⟨m.metadata.matchId, p.championName,
   (if p.deaths > 0 then ((p.kills : ℚ) + p.assists) / p.deaths
    else ((p.kills : ℚ) + p.assists)),
   p.kills, p.deaths, p.assists, p.totalMinionsKilled, p.visionScore,
   p.win, m.info.gameDuration⟩

/-- The match_performances entry a match contributes, none when the
owner is absent from its participants. -/
def perfOf (puuid : String) (m : MatchData) : Option MatchPerformance :=
  (findPlayer puuid m).map (perfOfP m)

/-- The scoring function exactly as the specification words it:
(primary_positive + secondary_positive) / max(primary_negative, 1) when
primary_negative is positive, else the plain sum. -/
def scoreQ (p : MatchPerformance) : ℚ :=
  if p.deaths > 0 then ((p.kills : ℚ) + p.assists) / ((max p.deaths 1 : ℕ) : ℚ)
  else ((p.kills : ℚ) + p.assists)

/-- The extrema property claimed of the aggregation: best is the won
item of highest score and worst the lost item of lowest score, ties
resolved to the first-seen item (witnessed by the split of the filtered
list around the chosen element), and an empty side yields absence. -/
def BestWorstSpec (puuid : String) (l : List MatchData) (d : AggData) : Prop :=
  ((l.filterMap (perfOf puuid)).filter (fun p => p.won) = [] → d.best_match = none) ∧
  ((l.filterMap (perfOf puuid)).filter (fun p => p.won) ≠ [] →
    ∃ w ys zs, (l.filterMap (perfOf puuid)).filter (fun p => p.won) = ys ++ w :: zs ∧
      d.best_match = some (mkSummary w true) ∧
      (∀ z ∈ ys, scoreQ z < scoreQ w) ∧
      (∀ z ∈ (l.filterMap (perfOf puuid)).filter (fun p => p.won), scoreQ z ≤ scoreQ w)) ∧
  ((l.filterMap (perfOf puuid)).filter (fun p => !p.won) = [] → d.worst_match = none) ∧
  ((l.filterMap (perfOf puuid)).filter (fun p => !p.won) ≠ [] →
    ∃ w ys zs, (l.filterMap (perfOf puuid)).filter (fun p => !p.won) = ys ++ w :: zs ∧
      d.worst_match = some (mkSummary w false) ∧
      (∀ z ∈ ys, scoreQ w < scoreQ z) ∧
      (∀ z ∈ (l.filterMap (perfOf puuid)).filter (fun p => !p.won), scoreQ w ≤ scoreQ z))

end MatchDataAggregator

namespace AggregateUser

/-- Everything store_aggregated_data persists apart from the timestamp
field. -/
def StoredAggregate.contents (w : StoredAggregate) :
    StoredPayload × String × String × ℕ :=
  (w.payload, w.puuid, w.ddb_status, w.ddb_match_count)

end AggregateUser

/-- A participant fixture. -/
def mkPart (pu champ : String) (k d a : ℕ) (w : Bool) : Participant :=
  ⟨pu, w, champ, "MIDDLE", k, d, a, 100, 20, 10, 2, false, false, Pings.zero⟩

/-- A one-participant match payload owned by user u. -/
def mA : MatchData := ⟨⟨"A"⟩, ⟨[mkPart "u" "Ahri" 5 2 7 true], 1800⟩⟩

/-- A match whose participants do not include user u. -/
def mBad : MatchData := ⟨⟨"B"⟩, ⟨[mkPart "other" "Ahri" 1 1 1 true], 900⟩⟩

/-- Three won matches with scoring values 1.5, 3.0 and 2.0. -/
def mW1 : MatchData := ⟨⟨"W1"⟩, ⟨[mkPart "u" "Lux" 3 2 0 true], 1200⟩⟩

def mW2 : MatchData := ⟨⟨"W2"⟩, ⟨[mkPart "u" "Ahri" 3 1 0 true], 1200⟩⟩

def mW3 : MatchData := ⟨⟨"W3"⟩, ⟨[mkPart "u" "Zed" 4 2 0 true], 1200⟩⟩

def lC7 : List MatchData := [mW1, mW2, mW3]

/-- The aggregate computed over lC7 (total if aggregation succeeds,
which the corresponding witness proves). -/
def dC7 : MatchDataAggregator.AggData :=
  match MatchDataAggregator.aggregate_match_data "u" lC7 with
  | Except.ok d => d
  | Except.error _ => default

/-- An aggregate_user state where the counter row is absent but the S3
fallback lists agree: the handler marks the owner complete although the
counter condition was never observable. -/
def stFallback : AggregateUser.AggState :=
  ⟨some ⟨["A"], ["A"]⟩, none, [("A", mA)]⟩

/-- An aggregate_user state with a readable counter row whose counter
condition holds. -/
def stRowDone : AggregateUser.AggState :=
  ⟨some ⟨["A"], ["A"]⟩, some ⟨1, 1⟩, [("A", mA)]⟩

namespace ProcessMatch

/-- All external calls succeed; the aggregate function is configured. -/
def flagsOk : PMFlags := ⟨false, false, false, false, false, false, false, true, mA⟩

/-- Flags where only the S3 cache write of the fetched match fails. -/
def flagsPutFail : PMFlags := ⟨false, false, true, false, false, false, false, true, mA⟩

/-- Flags where the upstream fetch itself fails after retries. -/
def flagsFetchFail : PMFlags := ⟨false, true, false, false, false, false, false, true, mA⟩

def msgA : Msg := ⟨"u", "A"⟩

/-- Owner with a single-item manifest whose item is already cached. -/
def stOne : PMState := ⟨[("A", mA)], some ⟨0, 1⟩, ["A"], [], [], [], 0⟩

/-- State after the first delivery of msgA. -/
def stOneAfter1 : PMState := (lambda_handler msgA flagsOk stOne).2

/-- State after the duplicate second delivery of msgA. -/
def stOneAfter2 : PMState := (lambda_handler msgA flagsOk stOneAfter1).2

/-- Owner mid-way through a five-item manifest, item A not yet cached. -/
def stFive : PMState := ⟨[], some ⟨0, 5⟩, ["A", "B", "C", "D", "E"], [], [], [], 0⟩

end ProcessMatch

namespace RateLimit

/-- Upstream behaviour 429, 429, then 200. -/
def respSeq : ℕ → Response := fun k =>
  if k = 0 then ⟨429, none, "first"⟩
  else if k = 1 then ⟨429, none, "second"⟩
  else ⟨200, none, "payload"⟩

/-- Upstream that rate-limits every attempt. -/
def respAll429 : ℕ → Response := fun _ => ⟨429, none, "limited"⟩

end RateLimit

/-! ## Helper theorems -/

theorem roundScaled_dist (q : ℚ) : |(roundScaled q : ℚ) - q| ≤ 1/2 := by
  unfold roundScaled
  have hfl : (⌊q⌋ : ℚ) ≤ q := Int.floor_le q
  have hfu : q < (⌊q⌋ : ℚ) + 1 := Int.lt_floor_add_one q
  by_cases h1 : q - (⌊q⌋ : ℚ) < 1/2
  · simp only [h1, if_true]
    rw [abs_sub_comm, abs_of_nonneg (by linarith)]
    linarith
  · by_cases h2 : (1:ℚ)/2 < q - (⌊q⌋ : ℚ)
    · simp only [h1, h2, if_false, if_true]
      push_cast
      rw [abs_of_nonneg (by linarith)]
      linarith
    · have heq : q - (⌊q⌋ : ℚ) = 1/2 := le_antisymm (not_lt.mp h2) (not_lt.mp h1)
      by_cases h3 : ⌊q⌋ % 2 = 0
      · simp only [h1, h2, h3, if_false, if_true]
        rw [abs_sub_comm, abs_of_nonneg (by linarith)]
        linarith
      · simp only [h1, h2, h3, if_false]
        push_cast
        rw [abs_of_nonneg (by linarith)]
        linarith

namespace RateLimit

theorem runAttempts_step200 (resp : ℕ → Response) (maxRetries baseMs rc fuel : ℕ)
    (h : (resp rc).status_code = 200) :
    runAttempts resp maxRetries baseMs rc (fuel + 1) = (Except.ok (resp rc), []) := by
  simp [runAttempts, h]

theorem runAttempts_step429 (resp : ℕ → Response) (maxRetries baseMs rc fuel : ℕ)
    (h : (resp rc).status_code = 429) (hlt : rc < maxRetries) :
    runAttempts resp maxRetries baseMs rc (fuel + 1) =
      ((runAttempts resp maxRetries baseMs (rc + 1) fuel).1,
       delayFor (resp rc) baseMs rc ::
         (runAttempts resp maxRetries baseMs (rc + 1) fuel).2) := by
  simp [runAttempts, h, hlt]

theorem runAttempts_step429_last (resp : ℕ → Response) (maxRetries baseMs rc fuel : ℕ)
    (h : (resp rc).status_code = 429) (hge : ¬ rc < maxRetries) :
    runAttempts resp maxRetries baseMs rc (fuel + 1) =
      (Except.error FetchError.rateLimitExceeded, []) := by
  simp [runAttempts, h, hge]

theorem runAttempts_success (resp : ℕ → Response) (maxRetries baseMs : ℕ) :
    ∀ n rc fuel, rc + fuel = maxRetries + 1 →
    (∀ k, rc ≤ k → k < rc + n → (resp k).status_code = 429) →
    (resp (rc + n)).status_code = 200 →
    rc + n ≤ maxRetries →
    runAttempts resp maxRetries baseMs rc fuel =
      (Except.ok (resp (rc + n)),
       (List.range n).map (fun k => delayFor (resp (rc + k)) baseMs (rc + k))) := by
  intro n
  induction n with
  | zero =>
    intro rc fuel hfuel _ h200 hle
    cases fuel with
    | zero => omega
    | succ f =>
      simp only [Nat.add_zero] at h200
      rw [runAttempts_step200 resp maxRetries baseMs rc f h200]
      simp
  | succ m ih =>
    intro rc fuel hfuel h429 h200 hle
    cases fuel with
    | zero => omega
    | succ f =>
      have hrc429 : (resp rc).status_code = 429 :=
        h429 rc (le_refl rc) (by omega)
      have hrclt : rc < maxRetries := by omega
      rw [runAttempts_step429 resp maxRetries baseMs rc f hrc429 hrclt]
      have hrec := ih (rc + 1) f (by omega)
        (fun k hk1 hk2 => h429 k (by omega) (by omega))
        (by
          have h : rc + 1 + m = rc + (m + 1) := by omega
          rw [h]; exact h200)
        (by omega)
      rw [hrec]
      rw [List.range_succ_eq_map, List.map_cons, List.map_map]
      refine Prod.ext ?_ ?_
      · simp only
        congr 2
        omega
      · simp only [Nat.add_zero, List.cons.injEq, true_and]
        apply List.map_congr_left
        intro k _
        have hidx : rc + 1 + k = rc + (k + 1) := by omega
        simp [Function.comp, hidx]

theorem runAttempts_exhaust (resp : ℕ → Response) (maxRetries baseMs : ℕ) :
    ∀ fuel rc, rc + fuel = maxRetries + 1 →
    (∀ k, rc ≤ k → k ≤ maxRetries → (resp k).status_code = 429) →
    runAttempts resp maxRetries baseMs rc fuel =
      (Except.error FetchError.rateLimitExceeded,
       (List.range (maxRetries - rc)).map
         (fun k => delayFor (resp (rc + k)) baseMs (rc + k))) := by
  intro fuel
  induction fuel with
  | zero =>
    intro rc hfuel h429
    have h0 : maxRetries - rc = 0 := by omega
    rw [h0]
    simp [runAttempts]
  | succ f ih =>
    intro rc hfuel h429
    have hrc429 : (resp rc).status_code = 429 := h429 rc (le_refl rc) (by omega)
    by_cases hlt : rc < maxRetries
    · rw [runAttempts_step429 resp maxRetries baseMs rc f hrc429 hlt]
      have hrec := ih (rc + 1) (by omega)
        (fun k hk1 hk2 => h429 k (by omega) hk2)
      rw [hrec]
      have hsub : maxRetries - rc = (maxRetries - (rc + 1)) + 1 := by omega
      rw [hsub, List.range_succ_eq_map, List.map_cons, List.map_map]
      refine Prod.ext rfl ?_
      simp only [Nat.add_zero, List.cons.injEq, true_and]
      apply List.map_congr_left
      intro k _
      have hidx : rc + 1 + k = rc + (k + 1) := by omega
      simp [Function.comp, hidx]
    · rw [runAttempts_step429_last resp maxRetries baseMs rc f hrc429 hlt]
      have h0 : maxRetries - rc = 0 := by omega
      rw [h0]
      simp

end RateLimit

namespace ProcessMatch

theorem pcOf_congr (s1 s2 : PMState) (h : s1.userRow = s2.userRow) :
    pcOf s1 = pcOf s2 := by
  unfold pcOf; rw [h]

theorem tmOf_congr (s1 s2 : PMState) (h : s1.userRow = s2.userRow) :
    tmOf s1 = tmOf s2 := by
  unfold tmOf; rw [h]

theorem store_match_in_s3_userRow (fl : PMFlags) (st : PMState) (mid : String)
    (md : MatchData) :
    (store_match_in_s3 fl st mid md).userRow = st.userRow ∧
    (store_match_in_s3 fl st mid md).aggregateInvocations = st.aggregateInvocations := by
  unfold store_match_in_s3
  cases hf : fl.s3PutFails <;> simp [hf]

theorem fetchPhase_ok_fields (msg : Msg) (fl : PMFlags) (st : PMState)
    (md : MatchData) (st1 : PMState)
    (h : fetchPhase msg fl st = Except.ok (md, st1)) :
    st1.userRow = st.userRow ∧
    st1.aggregateInvocations = st.aggregateInvocations := by
  unfold fetchPhase at h
  cases hl : lookupMatchData st.matchCache msg.match_id <;> rw [hl] at h
  · cases hf : fl.fetchFails <;> simp [hf] at h
    rw [← h.2]
    exact store_match_in_s3_userRow fl st msg.match_id fl.apiData
  · cases hg : fl.s3GetFails <;> simp [hg] at h
    · rw [← h.2]
      exact ⟨rfl, rfl⟩
    · cases hf : fl.fetchFails <;> simp [hf] at h
      rw [← h.2]
      exact store_match_in_s3_userRow fl st msg.match_id fl.apiData

theorem postFetch_fields (fl : PMFlags) (st : PMState) (pu mid : String)
    (md : MatchData) :
    (update_user_matches_list fl
      (store_user_match_details fl (update_match_index_table st mid) pu mid md)
      mid).userRow = st.userRow ∧
    (update_user_matches_list fl
      (store_user_match_details fl (update_match_index_table st mid) pu mid md)
      mid).aggregateInvocations = st.aggregateInvocations := by
  unfold update_user_matches_list store_user_match_details update_match_index_table
  cases hp : findPlayer pu md <;> cases hd : fl.detailsPutFails <;>
    cases hl : fl.listPutFails <;> simp [hp, hd, hl]

theorem increment_fields (r : Option UserRow) :
    (increment_processed_count_atomic r).processed_count =
      (match r with | some x => x.processed_count | none => 0) + 1 ∧
    (increment_processed_count_atomic r).total_matches =
      (match r with | some x => x.total_matches | none => 0) := by
  cases r <;> exact ⟨rfl, rfl⟩

theorem lambda_handler_ok_form (msg : Msg) (fl : PMFlags) (st : PMState)
    (md : MatchData) (st1 : PMState)
    (hf : fetchPhase msg fl st = Except.ok (md, st1)) (hi : fl.incrFails = false) :
    ∃ st4 : PMState,
      st4.userRow = st.userRow ∧
      st4.aggregateInvocations = st.aggregateInvocations ∧
      lambda_handler msg fl st =
        (if (increment_processed_count_atomic st4.userRow).processed_count ≥
              (increment_processed_count_atomic st4.userRow).total_matches ∧
            (increment_processed_count_atomic st4.userRow).total_matches > 0 then
           if fl.aggregateFnConfigured ∧ !fl.invokeFails then
             (200, { st4 with
                     userRow := some (increment_processed_count_atomic st4.userRow),
                     aggregateInvocations := st4.aggregateInvocations + 1 })
           else (200, { st4 with
                        userRow := some (increment_processed_count_atomic st4.userRow) })
         else (200, { st4 with
                      userRow := some (increment_processed_count_atomic st4.userRow) })) := by
  refine ⟨update_user_matches_list fl
      (store_user_match_details fl (update_match_index_table st1 msg.match_id)
        msg.puuid msg.match_id md) msg.match_id, ?_, ?_, ?_⟩
  · exact (postFetch_fields fl st1 msg.puuid msg.match_id md).1.trans
      (fetchPhase_ok_fields msg fl st md st1 hf).1
  · exact (postFetch_fields fl st1 msg.puuid msg.match_id md).2.trans
      (fetchPhase_ok_fields msg fl st md st1 hf).2
  · unfold lambda_handler
    rw [hf]
    simp only [hi, Bool.false_eq_true, if_false]

theorem lambda_handler_error_form (msg : Msg) (fl : PMFlags) (st : PMState)
    (e : Unit) (hf : fetchPhase msg fl st = Except.error e) :
    lambda_handler msg fl st = (500, st) := by
  unfold lambda_handler
  rw [hf]

theorem lambda_handler_incrFails_form (msg : Msg) (fl : PMFlags) (st : PMState)
    (md : MatchData) (st1 : PMState)
    (hf : fetchPhase msg fl st = Except.ok (md, st1)) (hi : fl.incrFails = true) :
    ∃ st4 : PMState,
      st4.userRow = st.userRow ∧
      st4.aggregateInvocations = st.aggregateInvocations ∧
      lambda_handler msg fl st = (200, st4) := by
  refine ⟨update_user_matches_list fl
      (store_user_match_details fl (update_match_index_table st1 msg.match_id)
        msg.puuid msg.match_id md) msg.match_id, ?_, ?_, ?_⟩
  · exact (postFetch_fields fl st1 msg.puuid msg.match_id md).1.trans
      (fetchPhase_ok_fields msg fl st md st1 hf).1
  · exact (postFetch_fields fl st1 msg.puuid msg.match_id md).2.trans
      (fetchPhase_ok_fields msg fl st md st1 hf).2
  · unfold lambda_handler
    rw [hf]
    simp only [hi, if_true]

theorem pc_after_delivery (msg : Msg) (fl : PMFlags) (st : PMState) :
    ((lambda_handler msg fl st).1 = 200 → fl.incrFails = false →
      pcOf (lambda_handler msg fl st).2 = pcOf st + 1) ∧
    ((lambda_handler msg fl st).1 = 500 ∨ fl.incrFails = true →
      pcOf (lambda_handler msg fl st).2 = pcOf st) := by
  cases hf : fetchPhase msg fl st with
  | error e =>
    rw [lambda_handler_error_form msg fl st e hf]
    exact ⟨fun h200 _ => by norm_num at h200, fun _ => rfl⟩
  | ok p =>
    obtain ⟨md, st1⟩ := p
    cases hi : fl.incrFails with
    | true =>
      obtain ⟨st4, hrow, _, hres⟩ := lambda_handler_incrFails_form msg fl st md st1 hf hi
      rw [hres]
      constructor
      · intro _ hff
        exact Bool.noConfusion hff
      · intro _
        exact pcOf_congr st4 st hrow
    | false =>
      obtain ⟨st4, hrow, _, hres⟩ := lambda_handler_ok_form msg fl st md st1 hf hi
      have hpc : (increment_processed_count_atomic st4.userRow).processed_count =
          pcOf st + 1 := by
        rw [(increment_fields st4.userRow).1]
        have : (match st4.userRow with
            | some x => x.processed_count | none => 0) = pcOf st4 := rfl
        rw [this, pcOf_congr st4 st hrow]
      rw [hres]
      constructor
      · intro _ _
        by_cases hgate : (increment_processed_count_atomic st4.userRow).processed_count ≥
            (increment_processed_count_atomic st4.userRow).total_matches ∧
            (increment_processed_count_atomic st4.userRow).total_matches > 0
        · rw [if_pos hgate]
          by_cases hcfg : (fl.aggregateFnConfigured ∧ !fl.invokeFails : Prop)
          · rw [if_pos hcfg]
            simpa [pcOf] using hpc
          · rw [if_neg hcfg]
            simpa [pcOf] using hpc
        · rw [if_neg hgate]
          simpa [pcOf] using hpc
      · intro hor
        rcases hor with h500 | hff
        · exfalso
          by_cases hgate : (increment_processed_count_atomic st4.userRow).processed_count ≥
              (increment_processed_count_atomic st4.userRow).total_matches ∧
              (increment_processed_count_atomic st4.userRow).total_matches > 0
          · rw [if_pos hgate] at h500
            by_cases hcfg : (fl.aggregateFnConfigured ∧ !fl.invokeFails : Prop)
            · rw [if_pos hcfg] at h500; norm_num at h500
            · rw [if_neg hcfg] at h500; norm_num at h500
          · rw [if_neg hgate] at h500; norm_num at h500
        · exact Bool.noConfusion hff

theorem trigger_characterisation (msg : Msg) (fl : PMFlags) (st : PMState)
    (hi : fl.incrFails = false) (hcfg : fl.aggregateFnConfigured = true)
    (hinv : fl.invokeFails = false) (h200 : (lambda_handler msg fl st).1 = 200) :
    ((lambda_handler msg fl st).2.aggregateInvocations = st.aggregateInvocations + 1 ↔
      (pcOf st + 1 ≥ tmOf st ∧ tmOf st > 0)) := by
  cases hf : fetchPhase msg fl st with
  | error e =>
    rw [lambda_handler_error_form msg fl st e hf] at h200
    norm_num at h200
  | ok p =>
    obtain ⟨md, st1⟩ := p
    obtain ⟨st4, hrow, hinvs, hres⟩ := lambda_handler_ok_form msg fl st md st1 hf hi
    have hpc : (increment_processed_count_atomic st4.userRow).processed_count =
        pcOf st + 1 := by
      rw [(increment_fields st4.userRow).1]
      have h : (match st4.userRow with
          | some x => x.processed_count | none => 0) = pcOf st4 := rfl
      rw [h, pcOf_congr st4 st hrow]
    have htm : (increment_processed_count_atomic st4.userRow).total_matches =
        tmOf st := by
      rw [(increment_fields st4.userRow).2]
      have h : (match st4.userRow with
          | some x => x.total_matches | none => 0) = tmOf st4 := rfl
      rw [h, tmOf_congr st4 st hrow]
    rw [hres]
    by_cases hgate : (increment_processed_count_atomic st4.userRow).processed_count ≥
        (increment_processed_count_atomic st4.userRow).total_matches ∧
        (increment_processed_count_atomic st4.userRow).total_matches > 0
    · rw [if_pos hgate]
      rw [if_pos (by simp [hcfg, hinv])]
      simp only
      rw [hinvs]
      constructor
      · intro _
        exact ⟨by rw [← hpc, ← htm]; exact hgate.1, by rw [← htm]; exact hgate.2⟩
      · intro _; rfl
    · rw [if_neg hgate]
      simp only
      rw [hinvs]
      constructor
      · intro habs
        exact absurd habs (by omega)
      · intro hcond
        exact absurd ⟨by rw [hpc, htm]; exact hcond.1, by rw [htm]; exact hcond.2⟩ hgate

/-- C1 counterexample: delivering the message for the already-processed
item A a second time raises processed_count from 0 to 2 although only
one distinct item was ever processed (the processed id list stays at
just A), so the increase exceeds the number of distinct successfully
processed items. -/
theorem duplicate_delivery_double_counts :
    pcOf stOneAfter2 = pcOf stOne + 2 ∧
    stOneAfter2.processedIds = ["A"] ∧
    ¬ (pcOf stOneAfter2 - pcOf stOne ≤ stOneAfter2.processedIds.length) :=
  ⟨rfl, rfl, by decide⟩

/-- C1 (amended): the counter is advanced once per successfully handled
delivery, not once per unique item: every delivery that returns 200
with a successful counter update adds exactly one to processed_count,
duplicates included, and a delivery that fails (500) or whose counter
update fails leaves it unchanged. -/
theorem processed_count_advances_per_delivery (msg : Msg) (fl : PMFlags)
    (st : PMState) :
    ((lambda_handler msg fl st).1 = 200 → fl.incrFails = false →
      pcOf (lambda_handler msg fl st).2 = pcOf st + 1) ∧
    ((lambda_handler msg fl st).1 = 500 ∨ fl.incrFails = true →
      pcOf (lambda_handler msg fl st).2 = pcOf st) :=
  pc_after_delivery msg fl st

theorem processed_count_advances_per_delivery_witness :
    pcOf (lambda_handler msgA flagsOk stOne).2 = pcOf stOne + 1 ∧
    pcOf (lambda_handler msgA flagsFetchFail stFive).2 = pcOf stFive :=
  ⟨(processed_count_advances_per_delivery msgA flagsOk stOne).1 rfl rfl,
   (processed_count_advances_per_delivery msgA flagsFetchFail stFive).2 (Or.inl rfl)⟩

/-- C4 evaluation at the failing input: with the S3 cache write failing
(store_match_in_s3 returning False, which the handler ignores) the
handler still returns 200 and advances processed_count, leaving the
match uncached; and with the upstream fetch failing the handler returns
500 from its top-level except clause (it does not re-raise) without
advancing the counter. -/
theorem failed_persist_still_advances_counter :
    (lambda_handler msgA flagsPutFail stFive).1 = 200 ∧
    pcOf (lambda_handler msgA flagsPutFail stFive).2 = pcOf stFive + 1 ∧
    lookupMatchData (lambda_handler msgA flagsPutFail stFive).2.matchCache "A" = none ∧
    lambda_handler msgA flagsFetchFail stFive = (500, stFive) :=
  ⟨rfl, rfl, rfl, rfl⟩

end ProcessMatch

namespace MatchDataAggregator

theorem stepMatch_none (puuid : String) (m : MatchData)
    (acc : AggData × List MatchPerformance) (h : findPlayer puuid m = none) :
    stepMatch puuid acc m = Except.error PyError.attributeError := by
  simp only [stepMatch, MatchAnalyzer.init, MatchAnalyzer.get_kda,
    MatchAnalyzer.playerField, h]
  rfl

theorem stepMatch_some (puuid : String) (m : MatchData) (p : Participant)
    (ad : AggData) (ps : List MatchPerformance) (h : findPlayer puuid m = some p) :
    ∃ ad2, stepMatch puuid (ad, ps) m = Except.ok (ad2, ps ++ [perfOfP m p]) :=
  ⟨_, by
    simp [stepMatch, MatchAnalyzer.init, MatchAnalyzer.get_kda,
      MatchAnalyzer.played_champion, MatchAnalyzer.played_position,
      MatchAnalyzer.is_match_won, MatchAnalyzer.get_cs,
      MatchAnalyzer.get_vision_score, MatchAnalyzer.get_wards_placed,
      MatchAnalyzer.get_wards_killed, MatchAnalyzer.early_surrender,
      MatchAnalyzer.got_first_blood, MatchAnalyzer.get_ping_counts,
      MatchAnalyzer.playerField, MatchAnalyzer.get_match_duration, h,
      perfOfP, Except.bind]
    rfl⟩

theorem foldlM_error (puuid : String) :
    ∀ (l : List MatchData) (acc : AggData × List MatchPerformance),
    (∃ m ∈ l, findPlayer puuid m = none) →
    l.foldlM (stepMatch puuid) acc = Except.error PyError.attributeError := by
  intro l
  induction l with
  | nil =>
    intro acc h
    simp at h
  | cons m t ih =>
    intro acc h
    rw [List.foldlM_cons]
    cases hp : findPlayer puuid m with
    | none =>
      rw [stepMatch_none puuid m acc hp]
      rfl
    | some p =>
      obtain ⟨ad, ps⟩ := acc
      obtain ⟨ad2, hstep⟩ := stepMatch_some puuid m p ad ps hp
      rw [hstep]
      show t.foldlM (stepMatch puuid) (ad2, ps ++ [perfOfP m p]) =
        Except.error PyError.attributeError
      apply ih
      rcases h with ⟨mbad, hmem, hnone⟩
      rcases List.mem_cons.mp hmem with heq | hmemt
      · rw [heq] at hnone
        rw [hnone] at hp
        exact Option.noConfusion hp
      · exact ⟨mbad, hmemt, hnone⟩

theorem aggregate_error_of_missing (puuid : String) (l : List MatchData)
    (h : ∃ m ∈ l, findPlayer puuid m = none) :
    aggregate_match_data puuid l = Except.error PyError.attributeError := by
  unfold aggregate_match_data
  rw [foldlM_error puuid l _ h]
  rfl

theorem foldl_keepMax_split {α : Type} (f : α → ℚ) :
    ∀ (xs : List α) (a : α),
    ∃ ys zs, a :: xs = ys ++ (xs.foldl (keepMax f) a) :: zs ∧
      (∀ z ∈ ys, f z < f (xs.foldl (keepMax f) a)) ∧
      (∀ z ∈ zs, f z ≤ f (xs.foldl (keepMax f) a)) := by
  intro xs
  induction xs with
  | nil =>
    intro a
    exact ⟨[], [], rfl, by simp, by simp⟩
  | cons b t ih =>
    intro a
    rw [List.foldl_cons]
    by_cases hgt : f b > f a
    · have hkeep : keepMax f a b = b := by simp [keepMax, hgt]
      rw [hkeep]
      obtain ⟨ys, zs, hsplit, hys, hzs⟩ := ih b
      refine ⟨a :: ys, zs, ?_, ?_, hzs⟩
      · rw [List.cons_append, ← hsplit]
      · intro z hz
        rcases List.mem_cons.mp hz with rfl | hzy
        · cases ys with
          | nil =>
            have hb : b = t.foldl (keepMax f) b := by
              have h := hsplit
              rw [List.nil_append] at h
              exact (List.cons.inj h).1
            rw [← hb]
            exact hgt
          | cons y ys2 =>
            have hy : b = y := by
              have h := hsplit
              rw [List.cons_append] at h
              exact (List.cons.inj h).1
            have hblt := hys y (List.mem_cons_self y ys2)
            rw [← hy] at hblt
            exact lt_trans hgt hblt
        · exact hys z hzy
    · have hkeep : keepMax f a b = a := by simp [keepMax, hgt]
      rw [hkeep]
      obtain ⟨ys, zs, hsplit, hys, hzs⟩ := ih a
      cases ys with
      | nil =>
        rw [List.nil_append] at hsplit
        have hra : a = t.foldl (keepMax f) a := (List.cons.inj hsplit).1
        have hzt : t = zs := (List.cons.inj hsplit).2
        refine ⟨[], b :: zs, ?_, by simp, ?_⟩
        · rw [List.nil_append, ← hra, ← hzt]
        · intro z hz
          rcases List.mem_cons.mp hz with rfl | hzz
          · rw [← hra]
            exact not_lt.mp hgt
          · exact hzs z hzz
      | cons y ys2 =>
        rw [List.cons_append] at hsplit
        have hy : a = y := (List.cons.inj hsplit).1
        have ht : t = ys2 ++ (t.foldl (keepMax f) a) :: zs := (List.cons.inj hsplit).2
        refine ⟨a :: b :: ys2, zs, ?_, ?_, hzs⟩
        · rw [List.cons_append, List.cons_append, ← ht]
        · intro z hz
          have hain : a ∈ y :: ys2 := by
            rw [← hy]; exact List.mem_cons_self a ys2
          have halt := hys a hain
          rcases List.mem_cons.mp hz with rfl | hz2
          · exact halt
          · rcases List.mem_cons.mp hz2 with rfl | hz3
            · exact lt_of_le_of_lt (not_lt.mp hgt) halt
            · exact hys z (List.mem_cons_of_mem y hz3)

theorem argmaxFirst_spec {α : Type} (f : α → ℚ) (xs : List α) :
    (argmaxFirst f xs = none ↔ xs = []) ∧
    (∀ w, argmaxFirst f xs = some w →
      ∃ ys zs, xs = ys ++ w :: zs ∧ (∀ z ∈ ys, f z < f w) ∧
        (∀ z ∈ xs, f z ≤ f w)) := by
  constructor
  · cases xs with
    | nil => simp [argmaxFirst]
    | cons a t => simp [argmaxFirst]
  · intro w hw
    cases xs with
    | nil => exact Option.noConfusion hw
    | cons a t =>
      have hw2 : t.foldl (keepMax f) a = w := Option.some.inj hw
      obtain ⟨ys, zs, hsplit, hys, hzs⟩ := foldl_keepMax_split f t a
      rw [hw2] at hsplit hys hzs
      refine ⟨ys, zs, hsplit, hys, ?_⟩
      intro z hz
      rw [hsplit] at hz
      rcases List.mem_append.mp hz with hzy | hzr
      · exact le_of_lt (hys z hzy)
      · rcases List.mem_cons.mp hzr with rfl | hzz
        · exact le_refl _
        · exact hzs z hzz

theorem keepMin_eq_keepMax_neg {α : Type} (f : α → ℚ) (a b : α) :
    keepMin f a b = keepMax (fun x => -(f x)) a b := by
  unfold keepMin keepMax
  by_cases h : f b < f a
  · rw [if_pos h, if_pos (by simpa using h)]
  · rw [if_neg h, if_neg (by simpa using h)]

theorem argminFirst_eq_argmaxFirst_neg {α : Type} (f : α → ℚ) (xs : List α) :
    argminFirst f xs = argmaxFirst (fun x => -(f x)) xs := by
  have hfun : keepMin f = keepMax (fun x => -(f x)) := by
    funext a b
    exact keepMin_eq_keepMax_neg f a b
  cases xs with
  | nil => rfl
  | cons a t =>
    unfold argminFirst argmaxFirst
    rw [hfun]

theorem argminFirst_spec {α : Type} (f : α → ℚ) (xs : List α) :
    (argminFirst f xs = none ↔ xs = []) ∧
    (∀ w, argminFirst f xs = some w →
      ∃ ys zs, xs = ys ++ w :: zs ∧ (∀ z ∈ ys, f w < f z) ∧
        (∀ z ∈ xs, f w ≤ f z)) := by
  rw [argminFirst_eq_argmaxFirst_neg]
  obtain ⟨h1, h2⟩ := argmaxFirst_spec (fun x => -(f x)) xs
  refine ⟨h1, ?_⟩
  intro w hw
  obtain ⟨ys, zs, hsplit, hys, hall⟩ := h2 w hw
  refine ⟨ys, zs, hsplit, ?_, ?_⟩
  · intro z hz
    have := hys z hz
    simpa using this
  · intro z hz
    have := hall z hz
    simpa using this

theorem foldlM_ok_perfs (puuid : String) :
    ∀ (l : List MatchData) (ad : AggData) (ps : List MatchPerformance)
      (ad2 : AggData) (ps2 : List MatchPerformance),
    l.foldlM (stepMatch puuid) (ad, ps) = Except.ok (ad2, ps2) →
    ps2 = ps ++ l.filterMap (perfOf puuid) := by
  intro l
  induction l with
  | nil =>
    intro ad ps ad2 ps2 h
    have h2 : (Except.ok (ad, ps) : Except PyError (AggData × List MatchPerformance)) =
        Except.ok (ad2, ps2) := h
    have h3 := (Prod.mk.injEq _ _ _ _).mp (Except.ok.inj h2)
    simp [← h3.2]
  | cons m t ih =>
    intro ad ps ad2 ps2 h
    rw [List.foldlM_cons] at h
    cases hp : findPlayer puuid m with
    | none =>
      rw [stepMatch_none puuid m (ad, ps) hp] at h
      exact Except.noConfusion h
    | some p =>
      obtain ⟨adx, hstep⟩ := stepMatch_some puuid m p ad ps hp
      rw [hstep] at h
      have h2 : t.foldlM (stepMatch puuid) (adx, ps ++ [perfOfP m p]) =
          Except.ok (ad2, ps2) := h
      have hpm : perfOf puuid m = some (perfOfP m p) := by
        simp [perfOf, hp]
      rw [ih adx (ps ++ [perfOfP m p]) ad2 ps2 h2, List.filterMap_cons, hpm]
      simp

theorem aggregate_ok_extrema (puuid : String) (l : List MatchData) (d : AggData)
    (h : aggregate_match_data puuid l = Except.ok d) :
    d.best_match = (argmaxFirst (fun p => p.kda_ratio)
        ((l.filterMap (perfOf puuid)).filter (fun p => p.won))).map
        (fun w => mkSummary w true) ∧
    d.worst_match = (argminFirst (fun p => p.kda_ratio)
        ((l.filterMap (perfOf puuid)).filter (fun p => !p.won))).map
        (fun w => mkSummary w false) := by
  unfold aggregate_match_data at h
  cases hfold : l.foldlM (stepMatch puuid) (AggData.init, []) with
  | error e =>
    rw [hfold] at h
    exact Except.noConfusion h
  | ok pair =>
    obtain ⟨ad, ps⟩ := pair
    rw [hfold] at h
    have hd := Except.ok.inj h
    have hps := foldlM_ok_perfs puuid l AggData.init [] ad ps hfold
    rw [List.nil_append] at hps
    constructor
    · rw [← hd]
      show (argmaxFirst (fun p => p.kda_ratio)
          (ps.filter (fun p => p.won))).map (fun w => mkSummary w true) = _
      rw [hps]
    · rw [← hd]
      show (argminFirst (fun p => p.kda_ratio)
          (ps.filter (fun p => !p.won))).map (fun w => mkSummary w false) = _
      rw [hps]

theorem mem_filterMap_kda_eq_score (puuid : String) (l : List MatchData)
    (q : MatchPerformance) (hq : q ∈ l.filterMap (perfOf puuid)) :
    q.kda_ratio = scoreQ q := by
  obtain ⟨m, _, hm⟩ := List.mem_filterMap.mp hq
  obtain ⟨p, hp, hpq⟩ := Option.map_eq_some'.mp hm
  rw [← hpq]
  unfold perfOfP scoreQ
  by_cases hd : p.deaths > 0
  · have hmax : max p.deaths 1 = p.deaths := by omega
    simp only [hd, if_true, hmax]
  · simp only [hd, if_false]

end MatchDataAggregator

/-- C10: when the owner's puuid matches no participant of a match,
MatchAnalyzer leaves player_data unassigned, every accessor that reads
it raises AttributeError, and consequently the aggregation fold over
any list containing such a match fails with that exception instead of
skipping the match. -/
theorem missing_owner_raises (puuid : String) (m : MatchData) (l : List MatchData) :
    (findPlayer puuid m = none →
      (MatchAnalyzer.init puuid m).player_data = none ∧
      (MatchAnalyzer.init puuid m).get_ping_counts = Except.error PyError.attributeError ∧
      (MatchAnalyzer.init puuid m).get_kda = Except.error PyError.attributeError ∧
      (MatchAnalyzer.init puuid m).is_match_won = Except.error PyError.attributeError) ∧
    ((∃ m2 ∈ l, findPlayer puuid m2 = none) →
      MatchDataAggregator.aggregate_match_data puuid l =
        Except.error PyError.attributeError) := by
  constructor
  · intro h
    refine ⟨by simp [MatchAnalyzer.init, h], ?_, ?_, ?_⟩ <;>
      simp [MatchAnalyzer.init, MatchAnalyzer.get_ping_counts,
        MatchAnalyzer.get_kda, MatchAnalyzer.is_match_won,
        MatchAnalyzer.playerField, h, Except.bind]
  · exact MatchDataAggregator.aggregate_error_of_missing puuid l

theorem missing_owner_raises_witness :
    MatchDataAggregator.aggregate_match_data "u" [mBad] =
      Except.error PyError.attributeError ∧
    (MatchAnalyzer.init "u" mBad).get_kda = Except.error PyError.attributeError :=
  ⟨(missing_owner_raises "u" mBad [mBad]).2 ⟨mBad, by simp, rfl⟩,
   ((missing_owner_raises "u" mBad [mBad]).1 rfl).2.2.1⟩

/-- C7: whenever the aggregation succeeds, best_match is the won item
of highest scoring value and worst_match the lost item of lowest
scoring value, with the score being (kills + assists) / max(deaths, 1)
when deaths is positive and kills + assists otherwise, ties resolved to
the first-seen item in input order; an empty win or loss side yields an
absent best or worst rather than an error. -/
theorem best_worst_selection (puuid : String) (l : List MatchData)
    (d : MatchDataAggregator.AggData)
    (h : MatchDataAggregator.aggregate_match_data puuid l = Except.ok d) :
    MatchDataAggregator.BestWorstSpec puuid l d := by
  obtain ⟨hbest, hworst⟩ := MatchDataAggregator.aggregate_ok_extrema puuid l d h
  unfold MatchDataAggregator.BestWorstSpec
  have hscore : ∀ q ∈ (l.filterMap (MatchDataAggregator.perfOf puuid)),
      q.kda_ratio = MatchDataAggregator.scoreQ q :=
    fun q hq => MatchDataAggregator.mem_filterMap_kda_eq_score puuid l q hq
  refine ⟨?_, ?_, ?_, ?_⟩
  · intro hempty
    rw [hbest, hempty]
    rfl
  · intro hne
    cases hw : MatchDataAggregator.argmaxFirst (fun p => p.kda_ratio)
        ((l.filterMap (MatchDataAggregator.perfOf puuid)).filter (fun p => p.won)) with
    | none =>
      exact absurd ((MatchDataAggregator.argmaxFirst_spec _ _).1.mp hw) hne
    | some w =>
      obtain ⟨ys, zs, hsplit, hys, hall⟩ :=
        (MatchDataAggregator.argmaxFirst_spec _ _).2 w hw
      have hwmem : w ∈ (l.filterMap (MatchDataAggregator.perfOf puuid)).filter
          (fun p => p.won) := by
        rw [hsplit]
        exact List.mem_append_right ys (List.mem_cons_self w zs)
      have hwscore := hscore w (List.mem_filter.mp hwmem).1
      refine ⟨w, ys, zs, hsplit, ?_, ?_, ?_⟩
      · rw [hbest, hw]
        rfl
      · intro z hz
        have hzmem : z ∈ (l.filterMap (MatchDataAggregator.perfOf puuid)).filter
            (fun p => p.won) := by
          rw [hsplit]
          exact List.mem_append_left _ hz
        have hzscore := hscore z (List.mem_filter.mp hzmem).1
        rw [← hzscore, ← hwscore]
        exact hys z hz
      · intro z hz
        have hzscore := hscore z (List.mem_filter.mp hz).1
        rw [← hzscore, ← hwscore]
        exact hall z hz
  · intro hempty
    rw [hworst, hempty]
    rfl
  · intro hne
    cases hw : MatchDataAggregator.argminFirst (fun p => p.kda_ratio)
        ((l.filterMap (MatchDataAggregator.perfOf puuid)).filter (fun p => !p.won)) with
    | none =>
      exact absurd ((MatchDataAggregator.argminFirst_spec _ _).1.mp hw) hne
    | some w =>
      obtain ⟨ys, zs, hsplit, hys, hall⟩ :=
        (MatchDataAggregator.argminFirst_spec _ _).2 w hw
      have hwmem : w ∈ (l.filterMap (MatchDataAggregator.perfOf puuid)).filter
          (fun p => !p.won) := by
        rw [hsplit]
        exact List.mem_append_right ys (List.mem_cons_self w zs)
      have hwscore := hscore w (List.mem_filter.mp hwmem).1
      refine ⟨w, ys, zs, hsplit, ?_, ?_, ?_⟩
      · rw [hworst, hw]
        rfl
      · intro z hz
        have hzmem : z ∈ (l.filterMap (MatchDataAggregator.perfOf puuid)).filter
            (fun p => !p.won) := by
          rw [hsplit]
          exact List.mem_append_left _ hz
        have hzscore := hscore z (List.mem_filter.mp hzmem).1
        rw [← hzscore, ← hwscore]
        exact hys z hz
      · intro z hz
        have hzscore := hscore z (List.mem_filter.mp hz).1
        rw [← hzscore, ← hwscore]
        exact hall z hz

theorem best_worst_selection_witness :
    MatchDataAggregator.aggregate_match_data "u" lC7 = Except.ok dC7 ∧
    MatchDataAggregator.BestWorstSpec "u" lC7 dC7 ∧
    dC7.worst_match = none :=
  ⟨rfl, best_worst_selection "u" lC7 dC7 rfl, rfl⟩

/-- C5: one aggregator invocation is a pure function of the owner and
the durable state apart from the clock, which flows only into the
stored last_updated field: two invocations on unchanged state agree on
the status code, the body, and every stored field except the
timestamp. -/
theorem aggregation_deterministic (puuid : String) (st : AggregateUser.AggState)
    (t1 t2 : String) :
    (AggregateUser.lambda_handler puuid st t1).statusCode =
      (AggregateUser.lambda_handler puuid st t2).statusCode ∧
    (AggregateUser.lambda_handler puuid st t1).bodyStatus =
      (AggregateUser.lambda_handler puuid st t2).bodyStatus ∧
    ((AggregateUser.lambda_handler puuid st t1).written).map
        AggregateUser.StoredAggregate.contents =
      ((AggregateUser.lambda_handler puuid st t2).written).map
        AggregateUser.StoredAggregate.contents := by
  by_cases h1 : (!(AggregateUser.check_all_matches_processed st).1 : Bool) = true
  · simp [AggregateUser.lambda_handler, h1]
  · by_cases h2 : ((AggregateUser.check_all_matches_processed st).2.filterMap
        (lookupMatchData st.matchStore)).isEmpty = true
    · simp [AggregateUser.lambda_handler, h1, h2,
        AggregateUser.store_aggregated_data, AggregateUser.StoredAggregate.contents]
    · cases hagg : MatchDataAggregator.aggregate_match_data puuid
          ((AggregateUser.check_all_matches_processed st).2.filterMap
            (lookupMatchData st.matchStore)) with
      | error e =>
        simp [AggregateUser.lambda_handler, h1, h2, hagg]
      | ok d =>
        simp [AggregateUser.lambda_handler, h1, h2, hagg,
          AggregateUser.store_aggregated_data, AggregateUser.StoredAggregate.contents]

namespace AggregateUser

theorem writes_iff (puuid : String) (st : AggState) (now : String) :
    (lambda_handler puuid st now).written.isSome = true ↔
      (check_all_matches_processed st).1 = true ∧
      (((check_all_matches_processed st).2.filterMap
          (lookupMatchData st.matchStore)) = [] ∨
        ∃ d, MatchDataAggregator.aggregate_match_data puuid
          ((check_all_matches_processed st).2.filterMap
            (lookupMatchData st.matchStore)) = Except.ok d) := by
  by_cases h1 : (!(check_all_matches_processed st).1 : Bool) = true
  · have hx : (check_all_matches_processed st).1 = false := by simpa using h1
    simp [lambda_handler, h1, hx]
  · have hx : (check_all_matches_processed st).1 = true := by simpa using h1
    by_cases h2 : ((check_all_matches_processed st).2.filterMap
        (lookupMatchData st.matchStore)).isEmpty = true
    · have hl := List.isEmpty_iff.mp h2
      simp [lambda_handler, h1, h2, hx, hl]
    · have hne : ((check_all_matches_processed st).2.filterMap
          (lookupMatchData st.matchStore)) ≠ [] := by
        simpa [List.isEmpty_iff] using h2
      cases hagg : MatchDataAggregator.aggregate_match_data puuid
          ((check_all_matches_processed st).2.filterMap
            (lookupMatchData st.matchStore)) with
      | error e =>
        simp [lambda_handler, h1, h2, hagg, hx, hne]
      | ok d =>
        simp [lambda_handler, h1, h2, hagg, hx, hne]

theorem check_counter_iff (st : AggState) (mj : MatchesJson) (row : UserRow)
    (hmj : st.matchesJson = some mj) (hrow : st.ddbRow = some row) :
    ((check_all_matches_processed st).1 = true ↔
      (row.processed_count ≥ row.total_matches ∧ row.total_matches > 0)) := by
  unfold check_all_matches_processed
  rw [hmj, hrow]
  simp

end AggregateUser

/-- C2 counterexample: at a state whose counter row is absent (so
processed_count >= total_items with total_items > 0 was never
observable for the owner) but whose S3 fallback lists agree, the
aggregator still writes the done aggregate, refuting the only-if
direction of the claim. -/
theorem done_without_counter_condition :
    (AggregateUser.lambda_handler "u" stFallback "T").bodyStatus = some "complete" ∧
    ((AggregateUser.lambda_handler "u" stFallback "T").written).map
      (fun w => w.ddb_status) = some "complete" ∧
    stFallback.ddbRow = none ∧
    ¬ ∃ r : UserRow, stFallback.ddbRow = some r ∧
        r.processed_count ≥ r.total_matches ∧ r.total_matches > 0 :=
  ⟨rfl, rfl, rfl, by simp [stFallback]⟩

/-- C2 (amended): the per-item processor triggers the aggregator
exactly when the freshly incremented counter satisfies processed_count
>= total_items with total_items > 0 (given a configured aggregate
function and successful increment and invoke calls); the aggregator
writes the done aggregate exactly when its own completion check passes
and the loaded data is empty or aggregates without an exception; and
that completion check is exactly the counter condition whenever the
counter row is readable, falling back to the S3 list comparison only
when it is not. -/
theorem completion_gate_and_done (msg : ProcessMatch.Msg) (fl : ProcessMatch.PMFlags)
    (stp : ProcessMatch.PMState) (puuid now : String)
    (st : AggregateUser.AggState) (mj : MatchesJson) (row : UserRow) :
    (fl.incrFails = false → fl.aggregateFnConfigured = true → fl.invokeFails = false →
      (ProcessMatch.lambda_handler msg fl stp).1 = 200 →
      ((ProcessMatch.lambda_handler msg fl stp).2.aggregateInvocations =
          stp.aggregateInvocations + 1 ↔
        (ProcessMatch.pcOf stp + 1 ≥ ProcessMatch.tmOf stp ∧
          ProcessMatch.tmOf stp > 0))) ∧
    ((AggregateUser.lambda_handler puuid st now).written.isSome = true ↔
      (AggregateUser.check_all_matches_processed st).1 = true ∧
      (((AggregateUser.check_all_matches_processed st).2.filterMap
          (lookupMatchData st.matchStore)) = [] ∨
        ∃ d, MatchDataAggregator.aggregate_match_data puuid
          ((AggregateUser.check_all_matches_processed st).2.filterMap
            (lookupMatchData st.matchStore)) = Except.ok d)) ∧
    (st.matchesJson = some mj → st.ddbRow = some row →
      ((AggregateUser.check_all_matches_processed st).1 = true ↔
        (row.processed_count ≥ row.total_matches ∧ row.total_matches > 0))) :=
  ⟨fun hi hcfg hinv h200 =>
      ProcessMatch.trigger_characterisation msg fl stp hi hcfg hinv h200,
   AggregateUser.writes_iff puuid st now,
   fun hmj hrow => AggregateUser.check_counter_iff st mj row hmj hrow⟩

theorem completion_gate_and_done_witness :
    ((ProcessMatch.lambda_handler ProcessMatch.msgA ProcessMatch.flagsOk
        ProcessMatch.stOne).2.aggregateInvocations =
        ProcessMatch.stOne.aggregateInvocations + 1 ↔
      (ProcessMatch.pcOf ProcessMatch.stOne + 1 ≥ ProcessMatch.tmOf ProcessMatch.stOne ∧
        ProcessMatch.tmOf ProcessMatch.stOne > 0)) ∧
    ((AggregateUser.lambda_handler "u" stRowDone "T").written.isSome = true ↔
      (AggregateUser.check_all_matches_processed stRowDone).1 = true ∧
      (((AggregateUser.check_all_matches_processed stRowDone).2.filterMap
          (lookupMatchData stRowDone.matchStore)) = [] ∨
        ∃ d, MatchDataAggregator.aggregate_match_data "u"
          ((AggregateUser.check_all_matches_processed stRowDone).2.filterMap
            (lookupMatchData stRowDone.matchStore)) = Except.ok d)) ∧
    ((AggregateUser.check_all_matches_processed stRowDone).1 = true ↔
      ((1 : ℕ) ≥ 1 ∧ (1 : ℕ) > 0)) :=
  ⟨(completion_gate_and_done ProcessMatch.msgA ProcessMatch.flagsOk ProcessMatch.stOne
      "u" "T" stRowDone ⟨["A"], ["A"]⟩ ⟨1, 1⟩).1 rfl rfl rfl rfl,
   (completion_gate_and_done ProcessMatch.msgA ProcessMatch.flagsOk ProcessMatch.stOne
      "u" "T" stRowDone ⟨["A"], ["A"]⟩ ⟨1, 1⟩).2.1,
   (completion_gate_and_done ProcessMatch.msgA ProcessMatch.flagsOk ProcessMatch.stOne
      "u" "T" stRowDone ⟨["A"], ["A"]⟩ ⟨1, 1⟩).2.2 rfl rfl⟩

/-- C3 evaluation at the failing input: dispatching a one-item owner
emits the manifest write, then the per-item enqueue, and only
afterwards the counter/status row initialisation, so a per-item message
becomes visible to consumers before the counter row is written. -/
theorem dispatcher_enqueues_before_counter_init :
    ProcessUserMatches.lambda_handler ["M1"] =
      (200, [ProcessUserMatches.DispatchEvent.putManifest 1,
             ProcessUserMatches.DispatchEvent.enqueue "M1",
             ProcessUserMatches.DispatchEvent.initCounterRow 1]) ∧
    (ProcessUserMatches.lambda_handler ["M1"]).2[1]? =
      some (ProcessUserMatches.DispatchEvent.enqueue "M1") ∧
    (ProcessUserMatches.lambda_handler ["M1"]).2[2]? =
      some (ProcessUserMatches.DispatchEvent.initCounterRow 1) :=
  ⟨rfl, rfl, rfl⟩

/-- C9 evaluation at the failing input: a zero-item owner makes the
dispatcher reach the undefined store_aggregated_data name (NameError,
caught by the top-level except clause) and return 500 with nothing
written, and the aggregator, finding no manifest for the owner,
answers in_progress and never writes a done aggregate. -/
theorem zero_item_owner_fails :
    ProcessUserMatches.lambda_handler ([] : List String) = (500, []) ∧
    AggregateUser.lambda_handler "u" ⟨none, none, []⟩ "T" =
      { statusCode := 200, bodyStatus := some "in_progress", written := none } :=
  ⟨rfl, rfl⟩

/-- C8: the per-minute normalisation returns 0 when the duration is
zero, and otherwise a multiple of 1/100 within half a unit in the last
place of value / duration_seconds * 60 (the rounding of that quantity
to two decimals). -/
theorem per_minute_normalization (total : ℚ) (duration : ℕ) :
    (duration = 0 → MatchDataAggregator.calculate_per_minute total duration = 0) ∧
    (duration ≠ 0 →
      (∃ n : ℤ, MatchDataAggregator.calculate_per_minute total duration = (n : ℚ) / 100) ∧
      |MatchDataAggregator.calculate_per_minute total duration -
        total / (duration : ℚ) * 60| ≤ 1 / 200) := by
  constructor
  · intro h
    simp [MatchDataAggregator.calculate_per_minute, h]
  · intro h
    have hval : MatchDataAggregator.calculate_per_minute total duration =
        (roundScaled (total / (duration : ℚ) * 60 * 100) : ℚ) / 100 := by
      simp only [MatchDataAggregator.calculate_per_minute, h, if_false, pyRound]
      norm_num
    refine ⟨⟨roundScaled (total / (duration : ℚ) * 60 * 100), hval⟩, ?_⟩
    rw [hval]
    have hdist := roundScaled_dist (total / (duration : ℚ) * 60 * 100)
    have hrw : (roundScaled (total / (duration : ℚ) * 60 * 100) : ℚ) / 100 -
        total / (duration : ℚ) * 60 =
        ((roundScaled (total / (duration : ℚ) * 60 * 100) : ℚ) -
          total / (duration : ℚ) * 60 * 100) / 100 := by
      ring
    rw [hrw, abs_div]
    rw [abs_of_pos (by norm_num : (0:ℚ) < 100)]
    linarith

theorem per_minute_normalization_witness :
    MatchDataAggregator.calculate_per_minute 180 0 = 0 ∧
    |MatchDataAggregator.calculate_per_minute 180 600 -
      180 / ((600 : ℕ) : ℚ) * 60| ≤ 1 / 200 ∧
    MatchDataAggregator.calculate_per_minute 180 600 = 18 :=
  ⟨(per_minute_normalization 180 0).1 rfl,
   ((per_minute_normalization 180 600).2 (by norm_num)).2,
   by norm_num [MatchDataAggregator.calculate_per_minute, pyRound, roundScaled]⟩

/-- C6: a request sequence answering 429 on every attempt before the
n-th and 200 at the n-th (n within the retry budget) succeeds with the
200 response after exactly n sleeps, each sleep being the Retry-After
hint when present and min(base * 2 ^ attempt, 60 s) otherwise; and a
sequence answering 429 on every attempt up to the budget fails with the
rate-limit error after max_retries sleeps. -/
theorem rate_limit_retry_spec (resp : ℕ → RateLimit.Response)
    (maxRetries baseMs : ℕ) :
    (∀ n, n ≤ maxRetries → (∀ k, k < n → (resp k).status_code = 429) →
      (resp n).status_code = 200 →
      RateLimit.make_request_with_retry resp maxRetries baseMs =
        (Except.ok (resp n),
         (List.range n).map (fun k => RateLimit.delayFor (resp k) baseMs k))) ∧
    ((∀ k, k ≤ maxRetries → (resp k).status_code = 429) →
      RateLimit.make_request_with_retry resp maxRetries baseMs =
        (Except.error RateLimit.FetchError.rateLimitExceeded,
         (List.range maxRetries).map
           (fun k => RateLimit.delayFor (resp k) baseMs k))) := by
  constructor
  · intro n hn h429 h200
    have h := RateLimit.runAttempts_success resp maxRetries baseMs n 0 (maxRetries + 1)
      (by omega) (fun k _ hk2 => h429 k (by omega)) (by simpa using h200) (by omega)
    simpa [RateLimit.make_request_with_retry] using h
  · intro h429
    have h := RateLimit.runAttempts_exhaust resp maxRetries baseMs (maxRetries + 1) 0
      (by omega) (fun k _ hk2 => h429 k hk2)
    simpa [RateLimit.make_request_with_retry] using h

theorem rate_limit_retry_witness :
    RateLimit.make_request_with_retry RateLimit.respSeq 10 100 =
      (Except.ok (RateLimit.respSeq 2),
       (List.range 2).map (fun k => RateLimit.delayFor (RateLimit.respSeq k) 100 k)) ∧
    (List.range 2).map (fun k => RateLimit.delayFor (RateLimit.respSeq k) 100 k) =
      [100, 200] ∧
    (RateLimit.respSeq 2).payload = "payload" ∧
    RateLimit.make_request_with_retry RateLimit.respAll429 10 100 =
      (Except.error RateLimit.FetchError.rateLimitExceeded,
       (List.range 10).map
         (fun k => RateLimit.delayFor (RateLimit.respAll429 k) 100 k)) :=
  ⟨(rate_limit_retry_spec RateLimit.respSeq 10 100).1 2 (by omega)
      (by intro k hk; interval_cases k <;> rfl) rfl,
   by decide,
   rfl,
   (rate_limit_retry_spec RateLimit.respAll429 10 100).2 (fun k _ => rfl)⟩

end RiftRewind
